import Mathlib

/-!
Shallow embedding of the request-governance layer of the yahoo-finance-mcp
server (src/server.py): the sliding-window global rate limiter, the
per-ticker minimum-interval throttle, the TTL result cache, the retry/backoff
executor, and four representative tool handlers built from them
(get_stock_info, get_historical_stock_prices, get_financial_statement,
get_recommendations).

Modelling conventions:
* `time.monotonic()` readings are rationals (ℚ); each handler takes one
  explicit reading per call site of `time.monotonic()` in the source
  (cache lookup, rate-limit check, cache store).
* Python dicts become association lists with unique keys; `dict.get`,
  item assignment and `dict.pop` become `dictGet`, `dictInsert`, `dictPop`.
* The upstream yfinance client is an oracle: for each fetch site, a function
  from the 0-based retry attempt index to `Except String α`, where `.error e`
  models a raised exception with message `e` and `.ok` carries the fetched
  value.  For fetches whose result is immediately serialised (for example
  `hist_data.reset_index().to_json(...)` or `json.dumps(info)`), the `.ok`
  payload is the serialised string, since the serialisation is a pure
  function of the fetched data and the claims concern provenance, not the
  serialisation itself.
* `random.uniform(0, x)` is an oracle `rnd : ℕ → ℚ` (one draw per backoff),
  constrained where a claim needs its range.
* Handler results carry instrumentation: `fetchCalls` counts upstream fetch
  invocations (oracle applications made by the retry executor) and
  `rateChecked` records whether `_rate_limit_check` ran.  `value : Option
  String` models the Python return value, `none` standing for a path that
  returns `None`.
-/

namespace YFin

/-- Configuration constants of src/server.py lines 14-21 (environment
variables with the defaults shown there). -/
structure Config where
  windowSeconds : ℚ
  maxRequests : ℕ
  minTickerInterval : ℚ
  cacheTtl : ℚ
  maxRetries : ℕ
  backoffBase : ℚ
deriving DecidableEq

/-- Default configuration: window 60s, 30 requests per window, 2s per-ticker
interval, 60s TTL, 2 retries, backoff base 1.5s. -/
def defaultConfig : Config :=
  { windowSeconds := 60, maxRequests := 30, minTickerInterval := 2
    cacheTtl := 60, maxRetries := 2, backoffBase := 3 / 2 }

/-- Association-list rendering of Python `dict.get`. -/
def dictGet {α β : Type} [DecidableEq α] : List (α × β) → α → Option β
  | [], _ => none
  | (k, v) :: rest, key => if key = k then some v else dictGet rest key

/-- Association-list rendering of Python dict item assignment: replace the
binding in place when the key is present, append it otherwise. -/
def dictInsert {α β : Type} [DecidableEq α] : List (α × β) → α → β → List (α × β)
  | [], key, val => [(key, val)]
  | (k, v) :: rest, key, val =>
      if key = k then (key, val) :: rest else (k, v) :: dictInsert rest key val

/-- Association-list rendering of Python `dict.pop(key, None)`. -/
def dictPop {α β : Type} [DecidableEq α] : List (α × β) → α → List (α × β)
  | [], _ => []
  | (k, v) :: rest, key => if key = k then rest else (k, v) :: dictPop rest key

/-- The mutable limiter state of src/server.py lines 23-24:
`_global_request_timestamps` and `_last_ticker_request`. -/
structure LimiterState where
  globalTimestamps : List ℚ
  lastTickerRequest : List (String × ℚ)
deriving DecidableEq

/-- `_prune_global_timestamps` (src/server.py lines 28-31): pop entries from
the front while the head is older than `now - window`. -/
def pruneGlobalTimestamps (window now : ℚ) : List ℚ → List ℚ
  | [] => []
  | t :: rest =>
      if t < now - window then pruneGlobalTimestamps window now rest else t :: rest

/-- Result of `_rate_limit_check`: the source returns `(limited, message)`
where the message embeds the retry-after figure formatted to one decimal; the
model keeps the exact rational retry-after alongside, and the post-call
limiter state explicitly. -/
structure RateLimitResult where
  limited : Bool
  retryAfter : Option ℚ
  state : LimiterState
deriving DecidableEq

/-- `_rate_limit_check` (src/server.py lines 34-53), a function of the
pre-call limiter state and of `now = time.monotonic()`.  `headD 0` renders
the `_global_request_timestamps[0]` indexing; with the positive request
budgets the server is configured with, the rejecting branch only runs on a
non-empty list. -/
def rateLimitCheck (cfg : Config) (st : LimiterState) (ticker : String)
    (now : ℚ) : RateLimitResult :=
  let ts := pruneGlobalTimestamps cfg.windowSeconds now st.globalTimestamps
  if cfg.maxRequests ≤ ts.length then
    { limited := true
      retryAfter := some (cfg.windowSeconds - (now - ts.headD 0))
      state := { st with globalTimestamps := ts } }
  else
    match dictGet st.lastTickerRequest ticker with
    | some last =>
        if now - last < cfg.minTickerInterval then
          { limited := true
            retryAfter := some (cfg.minTickerInterval - (now - last))
            state := { st with globalTimestamps := ts } }
        else
          { limited := false, retryAfter := none
            state := { globalTimestamps := ts ++ [now]
                       lastTickerRequest := dictInsert st.lastTickerRequest ticker now } }
    | none =>
        { limited := false, retryAfter := none
          state := { globalTimestamps := ts ++ [now]
                     lastTickerRequest := dictInsert st.lastTickerRequest ticker now } }

/-- The global-window stage of `_rate_limit_check` in isolation (src/server.py
lines 37-41 together with the recording step of line 51, restricted to the
global list): prune, reject when at capacity, otherwise record `now`. -/
def globalLimiterCheck (window : ℚ) (maxReq : ℕ) (ts : List ℚ) (now : ℚ) :
    Bool × Option ℚ × List ℚ :=
  let pruned := pruneGlobalTimestamps window now ts
  if maxReq ≤ pruned.length then
    (true, some (window - (now - pruned.headD 0)), pruned)
  else
    (false, none, pruned ++ [now])

/-- Cache keys: tuples of the operation name and the argument values
(src/server.py builds them as Python tuples of strings, plus the integer
`months_back` for get_recommendations). -/
inductive KeyPart where
  | s (v : String)
  | i (v : Int)
deriving DecidableEq

/-- The identity tuple a handler caches under. -/
abbrev CacheKey := List KeyPart

/-- The `_cache` dict of src/server.py line 25: key ↦ (expires_at, value). -/
abbrev Cache := List (CacheKey × ℚ × String)

/-- `_cache_get` (src/server.py lines 56-65): report the value while
unexpired; pop the entry and report absent once `now >= expires_at`.  Returns
the looked-up value together with the post-call cache. -/
def cacheGet (c : Cache) (k : CacheKey) (now : ℚ) : Option String × Cache :=
  match dictGet c k with
  | none => (none, c)
  | some (expiresAt, value) =>
      if expiresAt ≤ now then (none, dictPop c k) else (some value, c)

/-- `_cache_set` (src/server.py lines 68-70): store with expiry `now + ttl`. -/
def cacheSet (c : Cache) (k : CacheKey) (v : String) (now ttl : ℚ) : Cache :=
  dictInsert c k (now + ttl, v)

/-- Test whether the first character list opens the second. -/
def chAt : List Char → List Char → Bool
  | [], _ => true
  | _ :: _, [] => false
  | p :: ps, c :: cs => p = c && chAt ps cs

/-- Test whether the first character list occurs somewhere in the second
(Python `pattern in text`). -/
def chSub : List Char → List Char → Bool
  | pat, [] => pat.isEmpty
  | pat, c :: cs => chAt pat (c :: cs) || chSub pat cs

/-- Python `pattern in text` on strings. -/
def strHasSub (text pat : String) : Bool :=
  chSub pat.toList text.toList

/-- `_is_rate_limited_error` (src/server.py lines 73-75): an exception is
transient when its lowercased message contains "too many requests" or
"rate limited". -/
def isRateLimitedError (msg : String) : Bool :=
  strHasSub msg.toLower "too many requests" || strHasSub msg.toLower "rate limited"

/-- Loop body of `_execute_with_retry` (src/server.py lines 78-90).  The
source iterates `attempt` over `range(maxRetries + 1)` and re-attempts after
an exception exactly when `_is_rate_limited_error(exc)` and
`attempt < maxRetries`; the model re-indexes the loop by the number
`remaining = maxRetries - attempt` of re-attempts still allowed, which makes
the recursion structural.  `oracle attempt` is the outcome of the fetcher
invocation number `attempt` (0-based); `rnd attempt` the `random.uniform(0,
0.3 * backoff)` draw of that iteration.  Returns the propagated outcome, the
number of fetcher invocations made, and the list of backoff sleeps performed
(in order). -/
def retryRun {α : Type} (oracle : ℕ → Except String α) (rnd : ℕ → ℚ)
    (base : ℚ) : ℕ → ℕ → Except String α × ℕ × List ℚ
  | attempt, remaining =>
    match oracle attempt with
    | .ok v => (.ok v, 1, [])
    | .error e =>
        match remaining with
        | 0 => (.error e, 1, [])
        | r + 1 =>
            if isRateLimitedError e then
              match retryRun oracle rnd base (attempt + 1) r with
              | (res, cnt, sleeps) =>
                  (res, cnt + 1, (base * 2 ^ attempt + rnd attempt) :: sleeps)
            else (.error e, 1, [])

/-- `_execute_with_retry` (src/server.py lines 78-90): run the loop from
attempt 0 with `maxRetries` re-attempts allowed. -/
def executeWithRetry {α : Type} (oracle : ℕ → Except String α) (rnd : ℕ → ℚ)
    (base : ℚ) (maxRetries : ℕ) : Except String α × ℕ × List ℚ :=
  retryRun oracle rnd base 0 maxRetries

/-- Rendering of a rational for embedding in a message string.  The source
formats the float to one decimal; the claims concern the numeric value, so
the model renders the exact rational. -/
def fmtQ (q : ℚ) : String :=
  toString q.num ++ "/" ++ toString q.den

/-- The rate-limit rejection message of `_rate_limit_check`. -/
def rateLimitedMessage (retryAfter : ℚ) : String :=
  "Rate limited. Try after " ++ fmtQ retryAfter ++ "s."

/-- The handler-side conversion of a `_rate_limit_check` rejection into the
returned string (`message or "Rate limited. Try after a while."`). -/
def rateLimitValue (r : RateLimitResult) : String :=
  match r.retryAfter with
  | some q => rateLimitedMessage q
  | none => "Rate limited. Try after a while."

/-- The `Company ticker ... not found.` message. -/
def notFoundMessage (ticker : String) : String :=
  "Company ticker " ++ ticker ++ " not found."

/-- An `Error: ...` message, `what` naming the operation as in the source
f-strings (for example "getting stock information for"). -/
def errorMessage (what ticker e : String) : String :=
  "Error: " ++ what ++ " " ++ ticker ++ ": " ++ e

/-- Result of one tool-handler call: the returned Python value (`none` models
`return None`), the post-call limiter and cache state, the number of upstream
fetcher invocations, and whether `_rate_limit_check` ran. -/
structure ToolResult where
  value : Option String
  limiter : LimiterState
  cache : Cache
  fetchCalls : ℕ
  rateChecked : Bool
deriving DecidableEq

/-- Upstream oracle for get_stock_info: `company.isin` per attempt (`.ok
none` models a `None` isin, meaning the ticker was not found) and
`company.info` per attempt, with `.ok` carrying `json.dumps(info)`. -/
structure StockInfoUpstream where
  isin : ℕ → Except String (Option String)
  infoJson : ℕ → Except String String

/-- Cache key built by get_stock_info. -/
def stockInfoKey (ticker : String) : CacheKey :=
  [.s "get_stock_info", .s ticker]

/-- `get_stock_info` (src/server.py lines 215-242). -/
def getStockInfo (cfg : Config) (lim : LimiterState) (cache : Cache)
    (ticker : String) (up : StockInfoUpstream) (rnd : ℕ → ℚ)
    (tGet tCheck tSet : ℚ) : ToolResult :=
  match cacheGet cache (stockInfoKey ticker) tGet with
  | (some v, c1) =>
      { value := some v, limiter := lim, cache := c1
        fetchCalls := 0, rateChecked := false }
  | (none, c1) =>
      let rl := rateLimitCheck cfg lim ticker tCheck
      if rl.limited then
        { value := some (rateLimitValue rl), limiter := rl.state, cache := c1
          fetchCalls := 0, rateChecked := true }
      else
        match executeWithRetry up.isin rnd cfg.backoffBase cfg.maxRetries with
        | (.error e, n, _) =>
            { value := some (errorMessage "getting stock information for" ticker e)
              limiter := rl.state, cache := c1, fetchCalls := n, rateChecked := true }
        | (.ok none, n, _) =>
            { value := some (notFoundMessage ticker)
              limiter := rl.state, cache := c1, fetchCalls := n, rateChecked := true }
        | (.ok (some _), n, _) =>
            match executeWithRetry up.infoJson rnd cfg.backoffBase cfg.maxRetries with
            | (.error e, m, _) =>
                { value := some (errorMessage "getting stock information for" ticker e)
                  limiter := rl.state, cache := c1, fetchCalls := n + m, rateChecked := true }
            | (.ok payload, m, _) =>
                { value := some payload, limiter := rl.state
                  cache := cacheSet c1 (stockInfoKey ticker) payload tSet cfg.cacheTtl
                  fetchCalls := n + m, rateChecked := true }

/-- Upstream oracle for get_historical_stock_prices: `company.isin` per
attempt, and `company.history(period, interval)` per attempt with `.ok`
carrying the serialised `reset_index().to_json(orient="records",
date_format="iso")` of the fetched frame. -/
structure HistoricalUpstream where
  isin : ℕ → Except String (Option String)
  histJson : ℕ → Except String String

/-- Cache key built by get_historical_stock_prices. -/
def historicalKey (ticker period interval : String) : CacheKey :=
  [.s "get_historical_stock_prices", .s ticker, .s period, .s interval]

/-- `get_historical_stock_prices` (src/server.py lines 155-202). -/
def getHistoricalStockPrices (cfg : Config) (lim : LimiterState) (cache : Cache)
    (ticker period interval : String) (up : HistoricalUpstream) (rnd : ℕ → ℚ)
    (tGet tCheck tSet : ℚ) : ToolResult :=
  match cacheGet cache (historicalKey ticker period interval) tGet with
  | (some v, c1) =>
      { value := some v, limiter := lim, cache := c1
        fetchCalls := 0, rateChecked := false }
  | (none, c1) =>
      let rl := rateLimitCheck cfg lim ticker tCheck
      if rl.limited then
        { value := some (rateLimitValue rl), limiter := rl.state, cache := c1
          fetchCalls := 0, rateChecked := true }
      else
        match executeWithRetry up.isin rnd cfg.backoffBase cfg.maxRetries with
        | (.error e, n, _) =>
            { value := some (errorMessage "getting historical stock prices for" ticker e)
              limiter := rl.state, cache := c1, fetchCalls := n, rateChecked := true }
        | (.ok none, n, _) =>
            { value := some (notFoundMessage ticker)
              limiter := rl.state, cache := c1, fetchCalls := n, rateChecked := true }
        | (.ok (some _), n, _) =>
            match executeWithRetry up.histJson rnd cfg.backoffBase cfg.maxRetries with
            | (.error e, m, _) =>
                { value := some (errorMessage "getting historical stock prices for" ticker e)
                  limiter := rl.state, cache := c1, fetchCalls := n + m, rateChecked := true }
            | (.ok payload, m, _) =>
                { value := some payload, limiter := rl.state
                  cache := cacheSet c1 (historicalKey ticker period interval) payload
                    tSet cfg.cacheTtl
                  fetchCalls := n + m, rateChecked := true }

/-- The six values of the FinancialType enum (src/server.py lines 94-100);
the source compares the caller string against each member of the str-mixin
enum in an if/elif chain, which is equality with the member values. -/
def financialTypes : List String :=
  ["income_stmt", "quarterly_income_stmt", "balance_sheet",
   "quarterly_balance_sheet", "cashflow", "quarterly_cashflow"]

/-- The invalid-type message of src/server.py line 386.  The f-string
interpolates the six enum members; their rendering is Python-version
dependent (member value, or class-qualified member name), and the model uses
the member values. -/
def invalidFinancialTypeMessage (financialType : String) : String :=
  "Error: invalid financial type " ++ financialType ++
    ". Please use one of the following: income_stmt, quarterly_income_stmt, " ++
    "balance_sheet, quarterly_balance_sheet, cashflow, quarterly_cashflow."

/-- Upstream oracle for get_financial_statement: `company.isin` per attempt
and, for each statement kind, the statement fetch per attempt with `.ok`
carrying the `json.dumps` of the loop of lines 394-414 applied to the frame. -/
structure FinancialUpstream where
  isin : ℕ → Except String (Option String)
  stmtJson : String → ℕ → Except String String

/-- Cache key built by get_financial_statement. -/
def financialKey (ticker financialType : String) : CacheKey :=
  [.s "get_financial_statement", .s ticker, .s financialType]

/-- `get_financial_statement` (src/server.py lines 352-416).  The if/elif
chain over the six enum values, each branch selecting the corresponding
frame property, is rendered as membership in `financialTypes` with the
fetcher selected by `up.stmtJson financialType`. -/
def getFinancialStatement (cfg : Config) (lim : LimiterState) (cache : Cache)
    (ticker financialType : String) (up : FinancialUpstream) (rnd : ℕ → ℚ)
    (tGet tCheck tSet : ℚ) : ToolResult :=
  match cacheGet cache (financialKey ticker financialType) tGet with
  | (some v, c1) =>
      { value := some v, limiter := lim, cache := c1
        fetchCalls := 0, rateChecked := false }
  | (none, c1) =>
      let rl := rateLimitCheck cfg lim ticker tCheck
      if rl.limited then
        { value := some (rateLimitValue rl), limiter := rl.state, cache := c1
          fetchCalls := 0, rateChecked := true }
      else
        match executeWithRetry up.isin rnd cfg.backoffBase cfg.maxRetries with
        | (.error e, n, _) =>
            { value := some (errorMessage "getting financial statement for" ticker e)
              limiter := rl.state, cache := c1, fetchCalls := n, rateChecked := true }
        | (.ok none, n, _) =>
            { value := some (notFoundMessage ticker)
              limiter := rl.state, cache := c1, fetchCalls := n, rateChecked := true }
        | (.ok (some _), n, _) =>
            if financialType ∈ financialTypes then
              match executeWithRetry (up.stmtJson financialType) rnd
                  cfg.backoffBase cfg.maxRetries with
              | (.error e, m, _) =>
                  { value := some (errorMessage "getting financial statement for" ticker e)
                    limiter := rl.state, cache := c1, fetchCalls := n + m, rateChecked := true }
              | (.ok payload, m, _) =>
                  { value := some payload, limiter := rl.state
                    cache := cacheSet c1 (financialKey ticker financialType) payload
                      tSet cfg.cacheTtl
                    fetchCalls := n + m, rateChecked := true }
            else
              { value := some (invalidFinancialTypeMessage financialType)
                limiter := rl.state, cache := c1, fetchCalls := n, rateChecked := true }

/-- Upstream oracle for get_recommendations: `company.isin` per attempt;
`company.recommendations.to_json(orient="records")` per attempt; and the
upgrades/downgrades pipeline per attempt, `.ok` carrying the serialised
result of the cutoff filter, sort and per-firm deduplication of lines
672-682 (that whole pipeline sits inside the handler try-block, so a failure
anywhere in it surfaces as the same caught exception). -/
structure RecommendationsUpstream where
  isin : ℕ → Except String (Option String)
  recsJson : ℕ → Except String String
  upgradesJson : ℕ → Except String String

/-- Cache key built by get_recommendations. -/
def recommendationsKey (ticker recommendationType : String) (monthsBack : Int) :
    CacheKey :=
  [.s "get_recommendations", .s ticker, .s recommendationType, .i monthsBack]

/-- `get_recommendations` (src/server.py lines 643-687).  When
`recommendation_type` matches neither enum value, the try-block of the
source completes without returning and control falls off the end of the
function, so Python returns `None`: the model returns `value := none` on
that path. -/
def getRecommendations (cfg : Config) (lim : LimiterState) (cache : Cache)
    (ticker recommendationType : String) (monthsBack : Int)
    (up : RecommendationsUpstream) (rnd : ℕ → ℚ)
    (tGet tCheck tSet : ℚ) : ToolResult :=
  match cacheGet cache (recommendationsKey ticker recommendationType monthsBack) tGet with
  | (some v, c1) =>
      { value := some v, limiter := lim, cache := c1
        fetchCalls := 0, rateChecked := false }
  | (none, c1) =>
      let rl := rateLimitCheck cfg lim ticker tCheck
      if rl.limited then
        { value := some (rateLimitValue rl), limiter := rl.state, cache := c1
          fetchCalls := 0, rateChecked := true }
      else
        match executeWithRetry up.isin rnd cfg.backoffBase cfg.maxRetries with
        | (.error e, n, _) =>
            { value := some (errorMessage "getting recommendations for" ticker e)
              limiter := rl.state, cache := c1, fetchCalls := n, rateChecked := true }
        | (.ok none, n, _) =>
            { value := some (notFoundMessage ticker)
              limiter := rl.state, cache := c1, fetchCalls := n, rateChecked := true }
        | (.ok (some _), n, _) =>
            if recommendationType = "recommendations" then
              match executeWithRetry up.recsJson rnd cfg.backoffBase cfg.maxRetries with
              | (.error e, m, _) =>
                  { value := some (errorMessage "getting recommendations for" ticker e)
                    limiter := rl.state, cache := c1, fetchCalls := n + m, rateChecked := true }
              | (.ok payload, m, _) =>
                  { value := some payload, limiter := rl.state
                    cache := cacheSet c1
                      (recommendationsKey ticker recommendationType monthsBack) payload
                      tSet cfg.cacheTtl
                    fetchCalls := n + m, rateChecked := true }
            else if recommendationType = "upgrades_downgrades" then
              match executeWithRetry up.upgradesJson rnd cfg.backoffBase cfg.maxRetries with
              | (.error e, m, _) =>
                  { value := some (errorMessage "getting recommendations for" ticker e)
                    limiter := rl.state, cache := c1, fetchCalls := n + m, rateChecked := true }
              | (.ok payload, m, _) =>
                  { value := some payload, limiter := rl.state
                    cache := cacheSet c1
                      (recommendationsKey ticker recommendationType monthsBack) payload
                      tSet cfg.cacheTtl
                    fetchCalls := n + m, rateChecked := true }
            else
              { value := none, limiter := rl.state, cache := c1
                fetchCalls := n, rateChecked := true }

/-! ## Supporting lemmas -/

/-- Looking up the key just inserted yields the inserted value. -/
lemma dictGet_dictInsert_self {α β : Type} [DecidableEq α]
    (m : List (α × β)) (k : α) (v : β) : dictGet (dictInsert m k v) k = some v := by
  induction m with
  | nil => simp [dictGet, dictInsert]
  | cons p rest ih =>
      obtain ⟨k2, v2⟩ := p
      by_cases hk : k = k2
      · simp [dictGet, dictInsert, hk]
      · simp [dictGet, dictInsert, hk, ih]

/-- A cache hit performs no mutation: when the lookup reports a value, the
post-call cache is the pre-call cache. -/
lemma cacheGet_hit (c : Cache) (k : CacheKey) (t : ℚ) (v : String)
    (h : (cacheGet c k t).1 = some v) : cacheGet c k t = (some v, c) := by
  unfold cacheGet at h ⊢
  rcases hd : dictGet c k with _ | ⟨e, w⟩
  · rw [hd] at h
    simp at h
  · rw [hd] at h
    by_cases he : e ≤ t
    · simp [he] at h
    · simp [he] at h ⊢
      exact h

/-- On a sorted timestamp list the front-popping prune of
`_prune_global_timestamps` removes exactly the entries older than the
cutoff `now - window`. -/
lemma pruneGlobalTimestamps_eq_filter (window now : ℚ) :
    ∀ ts : List ℚ, ts.Sorted (· ≤ ·) →
      pruneGlobalTimestamps window now ts = ts.filter (fun t => now - window ≤ t) := by
  intro ts
  induction ts with
  | nil => intro _; rfl
  | cons t rest ih =>
      intro hs
      rw [List.sorted_cons] at hs
      by_cases hlt : t < now - window
      · have hnk : ¬ (now - window ≤ t) := not_le.mpr hlt
        simp only [pruneGlobalTimestamps, List.filter_cons]
        rw [if_pos hlt, if_neg (by simpa using hnk)]
        exact ih hs.2
      · have hle : now - window ≤ t := not_lt.mp hlt
        have hfr : rest.filter (fun x => decide (now - window ≤ x)) = rest :=
          List.filter_eq_self.mpr fun b hb =>
            decide_eq_true (le_trans hle (hs.1 b hb))
        simp only [pruneGlobalTimestamps, List.filter_cons]
        rw [if_neg hlt, if_pos (by simpa using hle), hfr]

/-- The head of a nonempty sorted list bounds every member. -/
lemma sorted_headD_le (l : List ℚ) (hs : l.Sorted (· ≤ ·)) :
    ∀ x ∈ l, l.headD 0 ≤ x := by
  cases l with
  | nil => simp
  | cons a rest =>
      intro x hx
      rw [List.sorted_cons] at hs
      rcases List.mem_cons.mp hx with rfl | hx2
      · simp
      · simpa using hs.1 x hx2

/-- The full `_rate_limit_check` realises the isolated global stage: a
global-stage rejection is returned as is, and on overall acceptance the
global list is updated exactly as the isolated stage records it. -/
lemma rateLimitCheck_realises_globalLimiterCheck (cfg : Config) (st : LimiterState)
    (ticker : String) (now : ℚ) :
    ((globalLimiterCheck cfg.windowSeconds cfg.maxRequests st.globalTimestamps now).1 = true →
      rateLimitCheck cfg st ticker now
        = { limited := true
            retryAfter :=
              (globalLimiterCheck cfg.windowSeconds cfg.maxRequests st.globalTimestamps now).2.1
            state := { st with globalTimestamps :=
              (globalLimiterCheck cfg.windowSeconds cfg.maxRequests st.globalTimestamps now).2.2 } })
    ∧ ((rateLimitCheck cfg st ticker now).limited = false →
      (rateLimitCheck cfg st ticker now).state.globalTimestamps
        = (globalLimiterCheck cfg.windowSeconds cfg.maxRequests st.globalTimestamps now).2.2) := by
  by_cases hg : cfg.maxRequests ≤
      (pruneGlobalTimestamps cfg.windowSeconds now st.globalTimestamps).length
  · constructor
    · intro _
      simp [rateLimitCheck, globalLimiterCheck, hg]
    · intro hfalse
      exfalso
      simp [rateLimitCheck, hg] at hfalse
  · constructor
    · intro htrue
      exfalso
      simp [globalLimiterCheck, hg] at htrue
    · intro hlim
      rcases hd : dictGet st.lastTickerRequest ticker with _ | last
      · simp [rateLimitCheck, globalLimiterCheck, hg, hd]
      · by_cases hi : now - last < cfg.minTickerInterval
        · exfalso
          simp [rateLimitCheck, hg, hd, hi] at hlim
        · simp [rateLimitCheck, globalLimiterCheck, hg, hd, hi]

/-- A successful attempt stops the retry loop at once. -/
lemma retryRun_ok {α : Type} (oracle : ℕ → Except String α) (rnd : ℕ → ℚ)
    (base : ℚ) (attempt remaining : ℕ) (v : α) (ho : oracle attempt = .ok v) :
    retryRun oracle rnd base attempt remaining = (.ok v, 1, []) := by
  unfold retryRun
  rw [ho]

/-- With no re-attempt remaining, a failure propagates at once. -/
lemma retryRun_error_exhausted {α : Type} (oracle : ℕ → Except String α)
    (rnd : ℕ → ℚ) (base : ℚ) (attempt : ℕ) (e : String)
    (ho : oracle attempt = .error e) :
    retryRun oracle rnd base attempt 0 = (.error e, 1, []) := by
  unfold retryRun
  rw [ho]

/-- A non-transient failure propagates at once. -/
lemma retryRun_error_stop {α : Type} (oracle : ℕ → Except String α)
    (rnd : ℕ → ℚ) (base : ℚ) (attempt r : ℕ) (e : String)
    (ho : oracle attempt = .error e) (ht : isRateLimitedError e = false) :
    retryRun oracle rnd base attempt (r + 1) = (.error e, 1, []) := by
  unfold retryRun
  rw [ho]
  simp [ht]

/-- A transient failure with attempts remaining sleeps the jittered backoff
of the current attempt and recurses. -/
lemma retryRun_error_retry {α : Type} (oracle : ℕ → Except String α)
    (rnd : ℕ → ℚ) (base : ℚ) (attempt r : ℕ) (e : String)
    (ho : oracle attempt = .error e) (ht : isRateLimitedError e = true)
    (a : Except String α) (b : ℕ) (c : List ℚ)
    (hnext : retryRun oracle rnd base (attempt + 1) r = (a, b, c)) :
    retryRun oracle rnd base attempt (r + 1)
      = (a, b + 1, (base * 2 ^ attempt + rnd attempt) :: c) := by
  conv_lhs => unfold retryRun
  rw [ho]
  simp [ht, hnext]

/-- Behaviour of the retry loop started at any attempt index: at least one
and at most `remaining + 1` invocations; every invocation before the last
failed with a transient-classified message; the propagated outcome is that
of the last invocation; an error outcome means the last failure was
non-transient or the budget was exhausted; and the sleeps are exactly the
jittered backoffs of the failed attempts, in order. -/
lemma retryRun_spec {α : Type} (oracle : ℕ → Except String α) (rnd : ℕ → ℚ)
    (base : ℚ) :
    ∀ remaining attempt r n sl,
      retryRun oracle rnd base attempt remaining = (r, n, sl) →
        1 ≤ n ∧ n ≤ remaining + 1
        ∧ (∀ j, j + 1 < n → ∃ e, oracle (attempt + j) = Except.error e
            ∧ isRateLimitedError e = true)
        ∧ r = oracle (attempt + (n - 1))
        ∧ (∀ e, r = Except.error e → isRateLimitedError e = false ∨ n = remaining + 1)
        ∧ sl = (List.range (n - 1)).map
            (fun j => base * 2 ^ (attempt + j) + rnd (attempt + j)) := by
  intro remaining
  induction remaining with
  | zero =>
      intro attempt r n sl h
      rcases ho : oracle attempt with e | v
      · rw [retryRun_error_exhausted oracle rnd base attempt e ho] at h
        simp only [Prod.mk.injEq] at h
        obtain ⟨rfl, rfl, rfl⟩ := h
        refine ⟨le_refl 1, by omega, ?_, ?_, ?_, by simp⟩
        · intro j hj
          exact absurd hj (by omega)
        · simpa using ho.symm
        · intro e2 he2
          right
          rfl
      · rw [retryRun_ok oracle rnd base attempt 0 v ho] at h
        simp only [Prod.mk.injEq] at h
        obtain ⟨rfl, rfl, rfl⟩ := h
        refine ⟨le_refl 1, by omega, ?_, ?_, ?_, by simp⟩
        · intro j hj
          exact absurd hj (by omega)
        · simpa using ho.symm
        · intro e2 he2
          cases he2
  | succ rr ih =>
      intro attempt r n sl h
      rcases ho : oracle attempt with e | v
      · by_cases ht : isRateLimitedError e = true
        · rcases hnext : retryRun oracle rnd base (attempt + 1) rr with ⟨r2, n2, sl2⟩
          rw [retryRun_error_retry oracle rnd base attempt rr e ho ht r2 n2 sl2 hnext] at h
          simp only [Prod.mk.injEq] at h
          obtain ⟨rfl, rfl, rfl⟩ := h
          obtain ⟨hn1, hn2, hall, hres, herr, hsl⟩ :=
            ih (attempt + 1) r2 n2 sl2 hnext
          refine ⟨by omega, by omega, ?_, ?_, ?_, ?_⟩
          · intro j hj
            cases j with
            | zero => exact ⟨e, by simpa using ho, ht⟩
            | succ jj =>
                have hidx : attempt + (jj + 1) = attempt + 1 + jj := by omega
                rw [hidx]
                exact hall jj (by omega)
          · have hidx : attempt + 1 + (n2 - 1) = attempt + (n2 + 1 - 1) := by omega
            rw [hidx] at hres
            exact hres
          · intro e2 he2
            rcases herr e2 he2 with hnt | hexh
            · exact Or.inl hnt
            · exact Or.inr (by omega)
          · have hn2pos : n2 = (n2 - 1) + 1 := by omega
            rw [hsl]
            have : n2 + 1 - 1 = (n2 - 1) + 1 := by omega
            rw [this, List.range_succ_eq_map, List.map_cons, List.map_map]
            refine congrArg₂ List.cons (by simp) ?_
            refine List.map_congr_left ?_
            intro a _
            have hidx : attempt + (a + 1) = attempt + 1 + a := by omega
            simp [Function.comp, hidx]
        · have htf : isRateLimitedError e = false := by
            revert ht
            cases isRateLimitedError e <;> simp
          rw [retryRun_error_stop oracle rnd base attempt rr e ho htf] at h
          simp only [Prod.mk.injEq] at h
          obtain ⟨rfl, rfl, rfl⟩ := h
          refine ⟨le_refl 1, by omega, ?_, ?_, ?_, by simp⟩
          · intro j hj
            exact absurd hj (by omega)
          · simpa using ho.symm
          · intro e2 he2
            left
            cases he2
            exact htf
      · rw [retryRun_ok oracle rnd base attempt (rr + 1) v ho] at h
        simp only [Prod.mk.injEq] at h
        obtain ⟨rfl, rfl, rfl⟩ := h
        refine ⟨le_refl 1, by omega, ?_, ?_, ?_, by simp⟩
        · intro j hj
          exact absurd hj (by omega)
        · simpa using ho.symm
        · intro e2 he2
          cases he2

/-- Element read of a mapped range at an in-bounds index. -/
lemma getD_map_range (f : ℕ → ℚ) (m i : ℕ) (hi : i < m) :
    ((List.range m).map f).getD i 0 = f i := by
  have hlen : i < ((List.range m).map f).length := by simpa using hi
  rw [List.getD_eq_getElem _ _ hlen, List.getElem_map, List.getElem_range]

/-! ## Claim theorems -/

/-- C4: the retry executor makes at least one and at most `maxRetries + 1`
fetch invocations; every invocation before the last failed with a
transient-classified message (so a re-attempt happens only on a transient
failure with attempts remaining); the outcome is that of the last
invocation, a success being returned and a failure propagated; and a
propagated failure is non-transient or occurred on the last allowed
attempt. -/
theorem spec_c4_retry_policy {α : Type} (oracle : ℕ → Except String α)
    (rnd : ℕ → ℚ) (base : ℚ) (maxRetries : ℕ) :
    1 ≤ (executeWithRetry oracle rnd base maxRetries).2.1
    ∧ (executeWithRetry oracle rnd base maxRetries).2.1 ≤ maxRetries + 1
    ∧ (∀ j, j + 1 < (executeWithRetry oracle rnd base maxRetries).2.1 →
        ∃ e, oracle j = Except.error e ∧ isRateLimitedError e = true)
    ∧ (executeWithRetry oracle rnd base maxRetries).1
        = oracle ((executeWithRetry oracle rnd base maxRetries).2.1 - 1)
    ∧ (∀ e, (executeWithRetry oracle rnd base maxRetries).1 = Except.error e →
        isRateLimitedError e = false
        ∨ (executeWithRetry oracle rnd base maxRetries).2.1 = maxRetries + 1) := by
  rcases h : executeWithRetry oracle rnd base maxRetries with ⟨r, n, sl⟩
  obtain ⟨h1, h2, h3, h4, h5, _⟩ := retryRun_spec oracle rnd base maxRetries 0 r n sl h
  dsimp only
  refine ⟨h1, h2, ?_, ?_, ?_⟩
  · intro j hj
    simpa using h3 j (by simpa using hj)
  · simpa using h4
  · intro e he
    exact h5 e (by simpa using he)

/-- C8: with a positive backoff base and each jitter draw inside
`[0, 0.3 * base * 2 ^ i]`, the executor sleeps exactly
`base * 2 ^ i + jitter i` before re-attempt `i + 1`; each sleep lies in
`[base * 2 ^ i, 1.3 * base * 2 ^ i]`; successive sleeps strictly increase;
and a first-attempt non-transient failure produces no sleep at all. -/
theorem spec_c8_backoff {α : Type} (oracle : ℕ → Except String α) (rnd : ℕ → ℚ)
    (base : ℚ) (maxRetries : ℕ) (hbase : 0 < base)
    (hrnd : ∀ i, 0 ≤ rnd i ∧ rnd i ≤ 3 / 10 * (base * 2 ^ i)) :
    (executeWithRetry oracle rnd base maxRetries).2.2
      = (List.range ((executeWithRetry oracle rnd base maxRetries).2.1 - 1)).map
          (fun i => base * 2 ^ i + rnd i)
    ∧ (∀ i, i < (executeWithRetry oracle rnd base maxRetries).2.2.length →
        base * 2 ^ i ≤ (executeWithRetry oracle rnd base maxRetries).2.2.getD i 0
        ∧ (executeWithRetry oracle rnd base maxRetries).2.2.getD i 0
            ≤ 13 / 10 * (base * 2 ^ i))
    ∧ List.Chain' (· < ·) (executeWithRetry oracle rnd base maxRetries).2.2
    ∧ (∀ e, oracle 0 = Except.error e → isRateLimitedError e = false →
        executeWithRetry oracle rnd base maxRetries = (Except.error e, 1, [])) := by
  rcases h : executeWithRetry oracle rnd base maxRetries with ⟨r, n, sl⟩
  obtain ⟨h1, _, _, _, _, h6⟩ := retryRun_spec oracle rnd base maxRetries 0 r n sl h
  have hsl : sl = (List.range (n - 1)).map (fun i => base * 2 ^ i + rnd i) := by
    rw [h6]
    refine List.map_congr_left ?_
    intro a _
    simp
  dsimp only
  refine ⟨by simpa using hsl, ?_, ?_, ?_⟩
  · intro i hi
    have hlen : sl.length = n - 1 := by
      rw [hsl]
      simp
    have him : i < n - 1 := by
      simp only [hlen] at hi
      simpa using hi
    have hget : sl.getD i 0 = base * 2 ^ i + rnd i := by
      rw [hsl]
      exact getD_map_range _ _ _ him
    simp only [hget]
    have hx : (0 : ℚ) < base * 2 ^ i := by positivity
    constructor
    · linarith [(hrnd i).1]
    · linarith [(hrnd i).2]
  · rw [hsl, List.chain'_map]
    rcases hn : n - 1 with _ | m
    · simp
    · rw [List.chain'_range_succ]
      intro i _
      simp only [Nat.succ_eq_add_one]
      have hx : (0 : ℚ) < base * 2 ^ i := by positivity
      have hup : base * 2 ^ i + rnd i ≤ 13 / 10 * (base * 2 ^ i) := by
        linarith [(hrnd i).2]
      have hlow : base * 2 ^ (i + 1) ≤ base * 2 ^ (i + 1) + rnd (i + 1) := by
        linarith [(hrnd (i + 1)).1]
      have hdouble : (13 : ℚ) / 10 * (base * 2 ^ i) < base * 2 ^ (i + 1) := by
        have : base * 2 ^ (i + 1) = 2 * (base * 2 ^ i) := by ring
        rw [this]
        linarith
      linarith
  · intro e he hne
    rw [← h]
    show retryRun oracle rnd base 0 maxRetries = (Except.error e, 1, [])
    cases maxRetries with
    | zero => exact retryRun_error_exhausted oracle rnd base 0 e he
    | succ k => exact retryRun_error_stop oracle rnd base 0 k e he hne

/-- First-attempt transient failure, success on the second attempt. -/
def c8Oracle : ℕ → Except String ℕ :=
  fun i => if i = 0 then Except.error "HTTP 429 Too Many Requests" else Except.ok 7

/-- Zero jitter draws for the C8 witness. -/
def c8Rnd : ℕ → ℚ := fun _ => 0

/-- Witness for C8 at base 1.5, two allowed re-attempts and zero jitter. -/
theorem spec_c8_backoff_w :
    (executeWithRetry c8Oracle c8Rnd (3 / 2) 2).2.2
      = (List.range ((executeWithRetry c8Oracle c8Rnd (3 / 2) 2).2.1 - 1)).map
          (fun i => 3 / 2 * 2 ^ i + c8Rnd i)
    ∧ (∀ i, i < (executeWithRetry c8Oracle c8Rnd (3 / 2) 2).2.2.length →
        3 / 2 * 2 ^ i ≤ (executeWithRetry c8Oracle c8Rnd (3 / 2) 2).2.2.getD i 0
        ∧ (executeWithRetry c8Oracle c8Rnd (3 / 2) 2).2.2.getD i 0
            ≤ 13 / 10 * (3 / 2 * 2 ^ i))
    ∧ List.Chain' (· < ·) (executeWithRetry c8Oracle c8Rnd (3 / 2) 2).2.2
    ∧ (∀ e, c8Oracle 0 = Except.error e → isRateLimitedError e = false →
        executeWithRetry c8Oracle c8Rnd (3 / 2) 2 = (Except.error e, 1, [])) :=
  spec_c8_backoff c8Oracle c8Rnd (3 / 2) 2 (by norm_num)
    (fun i => ⟨le_refl 0, by simp only [c8Rnd]; positivity⟩)

/-- C2: the global-limiter check prunes exactly the timestamps older than
`now - windowSeconds`; when the remaining count reaches the budget it
rejects, reporting `windowSeconds - (now - oldest remaining)` (the head of
the pruned list, which bounds every remaining entry); otherwise it records
`now` and accepts.  The state hypothesis is the reachable-state invariant
that the timestamp list, fed by a monotonic clock, is sorted. -/
theorem spec_c2_global_limiter (window : ℚ) (maxReq : ℕ) (ts : List ℚ) (now : ℚ)
    (hsort : ts.Sorted (· ≤ ·)) (hmax : 0 < maxReq) :
    pruneGlobalTimestamps window now ts = ts.filter (fun t => now - window ≤ t)
    ∧ (maxReq ≤ (pruneGlobalTimestamps window now ts).length →
        globalLimiterCheck window maxReq ts now
          = (true,
             some (window - (now - (pruneGlobalTimestamps window now ts).headD 0)),
             pruneGlobalTimestamps window now ts)
        ∧ pruneGlobalTimestamps window now ts ≠ []
        ∧ ∀ x ∈ pruneGlobalTimestamps window now ts,
            (pruneGlobalTimestamps window now ts).headD 0 ≤ x)
    ∧ ((pruneGlobalTimestamps window now ts).length < maxReq →
        globalLimiterCheck window maxReq ts now
          = (false, none, pruneGlobalTimestamps window now ts ++ [now])) := by
  have hfil := pruneGlobalTimestamps_eq_filter window now ts hsort
  have hpsort : (pruneGlobalTimestamps window now ts).Sorted (· ≤ ·) := by
    rw [hfil]
    exact hsort.sublist (List.filter_sublist ts)
  refine ⟨hfil, ?_, ?_⟩
  · intro hfull
    refine ⟨?_, ?_, sorted_headD_le _ hpsort⟩
    · simp [globalLimiterCheck, hfull]
    · intro hnil
      rw [hnil] at hfull
      simp at hfull
      omega
  · intro hroom
    simp [globalLimiterCheck, not_le.mpr hroom]

/-- Witness for C2 at a concrete sorted state over capacity: window 60,
budget 1, recorded timestamps 0 and 1, call at 2. -/
theorem spec_c2_global_limiter_w :
    pruneGlobalTimestamps 60 2 [0, 1] = [0, 1].filter (fun t => (2 : ℚ) - 60 ≤ t)
    ∧ (1 ≤ (pruneGlobalTimestamps 60 2 [0, 1]).length →
        globalLimiterCheck 60 1 [0, 1] 2
          = (true, some (60 - (2 - (pruneGlobalTimestamps 60 2 [0, 1]).headD 0)),
             pruneGlobalTimestamps 60 2 [0, 1])
        ∧ pruneGlobalTimestamps 60 2 [0, 1] ≠ []
        ∧ ∀ x ∈ pruneGlobalTimestamps 60 2 [0, 1],
            (pruneGlobalTimestamps 60 2 [0, 1]).headD 0 ≤ x)
    ∧ ((pruneGlobalTimestamps 60 2 [0, 1]).length < 1 →
        globalLimiterCheck 60 1 [0, 1] 2
          = (false, none, pruneGlobalTimestamps 60 2 [0, 1] ++ [2])) :=
  spec_c2_global_limiter 60 1 [0, 1] 2
    (by simp [List.sorted_cons]) (by norm_num)

/-- C3: with the global window under capacity, a call for a key seen
`now - last < minIntervalSeconds` ago is rejected with retry-after
`minIntervalSeconds - (now - last)` and only the lazy prune applied to the
state; a call for a key seen at least `minIntervalSeconds` ago, or never
seen, records `now` (globally and for the key) and accepts. -/
theorem spec_c3_per_ticker_throttle (cfg : Config) (st : LimiterState)
    (ticker : String) (now : ℚ)
    (hglob : (pruneGlobalTimestamps cfg.windowSeconds now st.globalTimestamps).length
        < cfg.maxRequests) :
    (∀ last, dictGet st.lastTickerRequest ticker = some last →
      (now - last < cfg.minTickerInterval →
        rateLimitCheck cfg st ticker now
          = { limited := true
              retryAfter := some (cfg.minTickerInterval - (now - last))
              state := { st with globalTimestamps :=
                pruneGlobalTimestamps cfg.windowSeconds now st.globalTimestamps } })
      ∧ (cfg.minTickerInterval ≤ now - last →
        rateLimitCheck cfg st ticker now
          = { limited := false
              retryAfter := none
              state :=
                { globalTimestamps :=
                    pruneGlobalTimestamps cfg.windowSeconds now st.globalTimestamps ++ [now]
                  lastTickerRequest := dictInsert st.lastTickerRequest ticker now } }))
    ∧ (dictGet st.lastTickerRequest ticker = none →
        rateLimitCheck cfg st ticker now
          = { limited := false
              retryAfter := none
              state :=
                { globalTimestamps :=
                    pruneGlobalTimestamps cfg.windowSeconds now st.globalTimestamps ++ [now]
                  lastTickerRequest := dictInsert st.lastTickerRequest ticker now } }) := by
  have hg : ¬ cfg.maxRequests ≤
      (pruneGlobalTimestamps cfg.windowSeconds now st.globalTimestamps).length :=
    not_le.mpr hglob
  refine ⟨?_, ?_⟩
  · intro last hlast
    refine ⟨?_, ?_⟩
    · intro hlt
      simp [rateLimitCheck, hg, hlast, hlt]
    · intro hge
      simp [rateLimitCheck, hg, hlast, not_lt.mpr hge]
  · intro hnone
    simp [rateLimitCheck, hg, hnone]

/-- Witness for C3: ticker last seen at 0, called again at 1 with the 2s
minimum interval, empty global window — rejected with retry-after 1. -/
theorem spec_c3_per_ticker_throttle_w :
    rateLimitCheck defaultConfig ⟨[], [("AAPL", 0)]⟩ "AAPL" 1
      = { limited := true
          retryAfter := some (defaultConfig.minTickerInterval - (1 - 0))
          state := ⟨pruneGlobalTimestamps defaultConfig.windowSeconds 1 [], [("AAPL", 0)]⟩ } :=
  ((spec_c3_per_ticker_throttle defaultConfig ⟨[], [("AAPL", 0)]⟩ "AAPL" 1
      (by decide)).1 0 (by decide)).1 (by norm_num [defaultConfig])

/-- C9: when `_rate_limit_check` rejects (by either limiter), the per-ticker
map is unchanged and the global list is only lazily pruned — in particular
no new timestamp is recorded, so a per-ticker rejection consumes no global
quota. -/
theorem spec_c9_reject_frame (cfg : Config) (st : LimiterState) (ticker : String)
    (now : ℚ) (h : (rateLimitCheck cfg st ticker now).limited = true) :
    (rateLimitCheck cfg st ticker now).state.lastTickerRequest = st.lastTickerRequest
    ∧ (rateLimitCheck cfg st ticker now).state.globalTimestamps
        = pruneGlobalTimestamps cfg.windowSeconds now st.globalTimestamps := by
  by_cases hg : cfg.maxRequests ≤
      (pruneGlobalTimestamps cfg.windowSeconds now st.globalTimestamps).length
  · constructor <;> simp [rateLimitCheck, hg]
  · rcases hd : dictGet st.lastTickerRequest ticker with _ | last
    · exfalso
      simp [rateLimitCheck, hg, hd] at h
    · by_cases hi : now - last < cfg.minTickerInterval
      · constructor <;> simp [rateLimitCheck, hg, hd, hi]
      · exfalso
        simp [rateLimitCheck, hg, hd, hi] at h

/-- Witness for C9 at a concrete per-ticker rejection. -/
theorem spec_c9_reject_frame_w :
    (rateLimitCheck defaultConfig ⟨[], [("AAPL", 0)]⟩ "AAPL" 1).state.lastTickerRequest
      = [("AAPL", 0)]
    ∧ (rateLimitCheck defaultConfig ⟨[], [("AAPL", 0)]⟩ "AAPL" 1).state.globalTimestamps
      = pruneGlobalTimestamps defaultConfig.windowSeconds 1 [] :=
  spec_c9_reject_frame defaultConfig ⟨[], [("AAPL", 0)]⟩ "AAPL" 1
    (by with_unfolding_all decide)

/-- C5: storing a value then looking it up at the same instant returns it;
the store records expiry `now + ttl` under the key, replacing any previous
binding; and a lookup at or past the recorded expiry reports absent and
removes the entry. -/
theorem spec_c5_cache_ttl (c : Cache) (k : CacheKey) (v : String) (now ttl : ℚ)
    (httl : 0 < ttl) :
    cacheGet (cacheSet c k v now ttl) k now = (some v, cacheSet c k v now ttl)
    ∧ dictGet (cacheSet c k v now ttl) k = some (now + ttl, v)
    ∧ (∀ e w t, dictGet c k = some (e, w) → e ≤ t →
        cacheGet c k t = (none, dictPop c k)) := by
  refine ⟨?_, ?_, ?_⟩
  · unfold cacheGet cacheSet
    rw [dictGet_dictInsert_self]
    have : ¬ now + ttl ≤ now := by linarith
    simp [this]
  · unfold cacheSet
    exact dictGet_dictInsert_self c k (now + ttl, v)
  · intro e w t hd he
    unfold cacheGet
    rw [hd]
    simp [he]

/-- Witness for C5 at a concrete cache, key and clock. -/
theorem spec_c5_cache_ttl_w :
    cacheGet (cacheSet [] [KeyPart.s "k"] "v" 0 60) [KeyPart.s "k"] 0
        = (some "v", cacheSet [] [KeyPart.s "k"] "v" 0 60)
    ∧ dictGet (cacheSet [] [KeyPart.s "k"] "v" 0 60) [KeyPart.s "k"]
        = some ((0 : ℚ) + 60, "v")
    ∧ (∀ e w t, dictGet ([] : Cache) [KeyPart.s "k"] = some (e, w) → e ≤ t →
        cacheGet [] [KeyPart.s "k"] t = (none, dictPop [] [KeyPart.s "k"])) :=
  spec_c5_cache_ttl [] [KeyPart.s "k"] "v" 0 60 (by norm_num)

/-- C1: on an unexpired cache hit, each modelled tool handler returns the
cached value with the limiter state untouched, no rate-limit check run and
no upstream fetch performed, whatever the limiter state (in particular at
full global capacity). -/
theorem spec_c1_cache_hit_bypass (cfg : Config) (lim : LimiterState) (cache : Cache)
    (rnd : ℕ → ℚ) (tGet tCheck tSet : ℚ)
    (ticker period interval financialType recommendationType : String)
    (monthsBack : Int)
    (upS : StockInfoUpstream) (upH : HistoricalUpstream)
    (upF : FinancialUpstream) (upR : RecommendationsUpstream)
    (v1 v2 v3 v4 : String)
    (h1 : (cacheGet cache (stockInfoKey ticker) tGet).1 = some v1)
    (h2 : (cacheGet cache (historicalKey ticker period interval) tGet).1 = some v2)
    (h3 : (cacheGet cache (financialKey ticker financialType) tGet).1 = some v3)
    (h4 : (cacheGet cache
            (recommendationsKey ticker recommendationType monthsBack) tGet).1 = some v4) :
    getStockInfo cfg lim cache ticker upS rnd tGet tCheck tSet
      = { value := some v1, limiter := lim, cache := cache
          fetchCalls := 0, rateChecked := false }
    ∧ getHistoricalStockPrices cfg lim cache ticker period interval upH rnd tGet tCheck tSet
      = { value := some v2, limiter := lim, cache := cache
          fetchCalls := 0, rateChecked := false }
    ∧ getFinancialStatement cfg lim cache ticker financialType upF rnd tGet tCheck tSet
      = { value := some v3, limiter := lim, cache := cache
          fetchCalls := 0, rateChecked := false }
    ∧ getRecommendations cfg lim cache ticker recommendationType monthsBack upR rnd
        tGet tCheck tSet
      = { value := some v4, limiter := lim, cache := cache
          fetchCalls := 0, rateChecked := false } := by
  refine ⟨?_, ?_, ?_, ?_⟩
  · have hc := cacheGet_hit _ _ _ _ h1
    simp [getStockInfo, hc]
  · have hc := cacheGet_hit _ _ _ _ h2
    simp [getHistoricalStockPrices, hc]
  · have hc := cacheGet_hit _ _ _ _ h3
    simp [getFinancialStatement, hc]
  · have hc := cacheGet_hit _ _ _ _ h4
    simp [getRecommendations, hc]

/-- Limiter state at full global capacity for the default configuration read
at clock 0: thirty timestamps inside the window. -/
def c1Lim : LimiterState := ⟨List.replicate 30 0, []⟩

/-- Concrete cache with one unexpired entry per modelled handler. -/
def c1Cache : Cache :=
  [(stockInfoKey "AAPL", 10, "cached-info"),
   (historicalKey "AAPL" "1mo" "1d", 10, "cached-hist"),
   (financialKey "AAPL" "income_stmt", 10, "cached-stmt"),
   (recommendationsKey "AAPL" "recommendations" 12, 10, "cached-recs")]

/-- Upstream oracles that fail if ever consulted: a cache hit must not reach
them. -/
def c1UpS : StockInfoUpstream :=
  ⟨fun _ => Except.error "unused", fun _ => Except.error "unused"⟩

/-- Historical-prices oracle for the C1 witness. -/
def c1UpH : HistoricalUpstream :=
  ⟨fun _ => Except.error "unused", fun _ => Except.error "unused"⟩

/-- Financial-statement oracle for the C1 witness. -/
def c1UpF : FinancialUpstream :=
  ⟨fun _ => Except.error "unused", fun _ _ => Except.error "unused"⟩

/-- Recommendations oracle for the C1 witness. -/
def c1UpR : RecommendationsUpstream :=
  ⟨fun _ => Except.error "unused", fun _ => Except.error "unused",
   fun _ => Except.error "unused"⟩

/-- Witness for C1: with the global limiter at capacity and every key
cached, all four handlers return the cached values without touching the
limiter or the upstream. -/
theorem spec_c1_cache_hit_bypass_w :
    getStockInfo defaultConfig c1Lim c1Cache "AAPL" c1UpS (fun _ => 0) 0 0 0
      = { value := some "cached-info", limiter := c1Lim, cache := c1Cache
          fetchCalls := 0, rateChecked := false }
    ∧ getHistoricalStockPrices defaultConfig c1Lim c1Cache "AAPL" "1mo" "1d" c1UpH
        (fun _ => 0) 0 0 0
      = { value := some "cached-hist", limiter := c1Lim, cache := c1Cache
          fetchCalls := 0, rateChecked := false }
    ∧ getFinancialStatement defaultConfig c1Lim c1Cache "AAPL" "income_stmt" c1UpF
        (fun _ => 0) 0 0 0
      = { value := some "cached-stmt", limiter := c1Lim, cache := c1Cache
          fetchCalls := 0, rateChecked := false }
    ∧ getRecommendations defaultConfig c1Lim c1Cache "AAPL" "recommendations" 12 c1UpR
        (fun _ => 0) 0 0 0
      = { value := some "cached-recs", limiter := c1Lim, cache := c1Cache
          fetchCalls := 0, rateChecked := false } :=
  spec_c1_cache_hit_bypass defaultConfig c1Lim c1Cache (fun _ => 0) 0 0 0
    "AAPL" "1mo" "1d" "income_stmt" "recommendations" 12 c1UpS c1UpH c1UpF c1UpR
    "cached-info" "cached-hist" "cached-stmt" "cached-recs"
    (by decide) (by decide) (by decide) (by decide)

/-- C10: every value a modelled handler ever stores in the result cache is
the transformed payload of a successful fetch.  For each handler, the
post-call cache is either the post-lookup cache unchanged (every rate-limit,
not-found and error path) or that cache with the operation key bound to the
`.ok` payload of the handler's own data fetch, which the call also returns;
the rate-limit, not-found and `Error: ...` sentences are never passed to the
store. -/
theorem spec_c10_cache_provenance (cfg : Config) (lim : LimiterState) (cache : Cache)
    (rnd : ℕ → ℚ) (tGet tCheck tSet : ℚ)
    (ticker period interval financialType recommendationType : String)
    (monthsBack : Int)
    (upS : StockInfoUpstream) (upH : HistoricalUpstream)
    (upF : FinancialUpstream) (upR : RecommendationsUpstream) :
    ((getStockInfo cfg lim cache ticker upS rnd tGet tCheck tSet).cache
        = (cacheGet cache (stockInfoKey ticker) tGet).2
      ∨ ∃ v, (executeWithRetry upS.infoJson rnd cfg.backoffBase cfg.maxRetries).1
            = Except.ok v
          ∧ (getStockInfo cfg lim cache ticker upS rnd tGet tCheck tSet).cache
            = cacheSet (cacheGet cache (stockInfoKey ticker) tGet).2
                (stockInfoKey ticker) v tSet cfg.cacheTtl
          ∧ (getStockInfo cfg lim cache ticker upS rnd tGet tCheck tSet).value = some v)
    ∧ ((getHistoricalStockPrices cfg lim cache ticker period interval upH rnd
          tGet tCheck tSet).cache
        = (cacheGet cache (historicalKey ticker period interval) tGet).2
      ∨ ∃ v, (executeWithRetry upH.histJson rnd cfg.backoffBase cfg.maxRetries).1
            = Except.ok v
          ∧ (getHistoricalStockPrices cfg lim cache ticker period interval upH rnd
              tGet tCheck tSet).cache
            = cacheSet (cacheGet cache (historicalKey ticker period interval) tGet).2
                (historicalKey ticker period interval) v tSet cfg.cacheTtl
          ∧ (getHistoricalStockPrices cfg lim cache ticker period interval upH rnd
              tGet tCheck tSet).value = some v)
    ∧ ((getFinancialStatement cfg lim cache ticker financialType upF rnd
          tGet tCheck tSet).cache
        = (cacheGet cache (financialKey ticker financialType) tGet).2
      ∨ ∃ v, (executeWithRetry (upF.stmtJson financialType) rnd cfg.backoffBase
            cfg.maxRetries).1 = Except.ok v
          ∧ (getFinancialStatement cfg lim cache ticker financialType upF rnd
              tGet tCheck tSet).cache
            = cacheSet (cacheGet cache (financialKey ticker financialType) tGet).2
                (financialKey ticker financialType) v tSet cfg.cacheTtl
          ∧ (getFinancialStatement cfg lim cache ticker financialType upF rnd
              tGet tCheck tSet).value = some v)
    ∧ ((getRecommendations cfg lim cache ticker recommendationType monthsBack upR rnd
          tGet tCheck tSet).cache
        = (cacheGet cache (recommendationsKey ticker recommendationType monthsBack) tGet).2
      ∨ (∃ v, (executeWithRetry upR.recsJson rnd cfg.backoffBase cfg.maxRetries).1
            = Except.ok v
          ∧ (getRecommendations cfg lim cache ticker recommendationType monthsBack upR rnd
              tGet tCheck tSet).cache
            = cacheSet
                (cacheGet cache (recommendationsKey ticker recommendationType monthsBack)
                  tGet).2
                (recommendationsKey ticker recommendationType monthsBack) v tSet cfg.cacheTtl
          ∧ (getRecommendations cfg lim cache ticker recommendationType monthsBack upR rnd
              tGet tCheck tSet).value = some v)
      ∨ (∃ v, (executeWithRetry upR.upgradesJson rnd cfg.backoffBase cfg.maxRetries).1
            = Except.ok v
          ∧ (getRecommendations cfg lim cache ticker recommendationType monthsBack upR rnd
              tGet tCheck tSet).cache
            = cacheSet
                (cacheGet cache (recommendationsKey ticker recommendationType monthsBack)
                  tGet).2
                (recommendationsKey ticker recommendationType monthsBack) v tSet cfg.cacheTtl
          ∧ (getRecommendations cfg lim cache ticker recommendationType monthsBack upR rnd
              tGet tCheck tSet).value = some v)) := by
  refine ⟨?_, ?_, ?_, ?_⟩
  · unfold getStockInfo
    rcases hcg : cacheGet cache (stockInfoKey ticker) tGet with ⟨cv, c1⟩
    cases cv with
    | some v => left; rfl
    | none =>
        dsimp only
        by_cases hrl : (rateLimitCheck cfg lim ticker tCheck).limited = true
        · rw [if_pos hrl]
          left; rfl
        · rw [if_neg hrl]
          rcases hisin : executeWithRetry upS.isin rnd cfg.backoffBase cfg.maxRetries
            with ⟨ri, ni, si⟩
          cases ri with
          | error e => left; rfl
          | ok iv =>
              cases iv with
              | none => left; rfl
              | some s =>
                  rcases hinfo : executeWithRetry upS.infoJson rnd cfg.backoffBase
                      cfg.maxRetries with ⟨rh, nh, sh⟩
                  cases rh with
                  | error e => left; rfl
                  | ok v =>
                      right
                      exact ⟨v, rfl, rfl, rfl⟩
  · unfold getHistoricalStockPrices
    rcases hcg : cacheGet cache (historicalKey ticker period interval) tGet with ⟨cv, c1⟩
    cases cv with
    | some v => left; rfl
    | none =>
        dsimp only
        by_cases hrl : (rateLimitCheck cfg lim ticker tCheck).limited = true
        · rw [if_pos hrl]
          left; rfl
        · rw [if_neg hrl]
          rcases hisin : executeWithRetry upH.isin rnd cfg.backoffBase cfg.maxRetries
            with ⟨ri, ni, si⟩
          cases ri with
          | error e => left; rfl
          | ok iv =>
              cases iv with
              | none => left; rfl
              | some s =>
                  rcases hh : executeWithRetry upH.histJson rnd cfg.backoffBase
                      cfg.maxRetries with ⟨rh, nh, sh⟩
                  cases rh with
                  | error e => left; rfl
                  | ok v =>
                      right
                      exact ⟨v, rfl, rfl, rfl⟩
  · unfold getFinancialStatement
    rcases hcg : cacheGet cache (financialKey ticker financialType) tGet with ⟨cv, c1⟩
    cases cv with
    | some v => left; rfl
    | none =>
        dsimp only
        by_cases hrl : (rateLimitCheck cfg lim ticker tCheck).limited = true
        · rw [if_pos hrl]
          left; rfl
        · rw [if_neg hrl]
          rcases hisin : executeWithRetry upF.isin rnd cfg.backoffBase cfg.maxRetries
            with ⟨ri, ni, si⟩
          cases ri with
          | error e => left; rfl
          | ok iv =>
              cases iv with
              | none => left; rfl
              | some s =>
                  dsimp only
                  by_cases hft : financialType ∈ financialTypes
                  · rw [if_pos hft]
                    rcases hh : executeWithRetry (upF.stmtJson financialType) rnd
                        cfg.backoffBase cfg.maxRetries with ⟨rh, nh, sh⟩
                    cases rh with
                    | error e => left; rfl
                    | ok v =>
                        right
                        exact ⟨v, rfl, rfl, rfl⟩
                  · rw [if_neg hft]
                    left; rfl
  · unfold getRecommendations
    rcases hcg : cacheGet cache (recommendationsKey ticker recommendationType monthsBack)
      tGet with ⟨cv, c1⟩
    cases cv with
    | some v => left; rfl
    | none =>
        dsimp only
        by_cases hrl : (rateLimitCheck cfg lim ticker tCheck).limited = true
        · rw [if_pos hrl]
          left; rfl
        · rw [if_neg hrl]
          rcases hisin : executeWithRetry upR.isin rnd cfg.backoffBase cfg.maxRetries
            with ⟨ri, ni, si⟩
          cases ri with
          | error e => left; rfl
          | ok iv =>
              cases iv with
              | none => left; rfl
              | some s =>
                  dsimp only
                  by_cases hrt : recommendationType = "recommendations"
                  · rw [if_pos hrt]
                    rcases hh : executeWithRetry upR.recsJson rnd cfg.backoffBase
                        cfg.maxRetries with ⟨rh, nh, sh⟩
                    cases rh with
                    | error e => left; rfl
                    | ok v =>
                        right; left
                        exact ⟨v, rfl, rfl, rfl⟩
                  · rw [if_neg hrt]
                    by_cases hut : recommendationType = "upgrades_downgrades"
                    · rw [if_pos hut]
                      rcases hh : executeWithRetry upR.upgradesJson rnd cfg.backoffBase
                          cfg.maxRetries with ⟨rh, nh, sh⟩
                      cases rh with
                      | error e => left; rfl
                      | ok v =>
                          right; right
                          exact ⟨v, rfl, rfl, rfl⟩
                    · rw [if_neg hut]
                      left; rfl

/-- Financial-statement upstream whose ticker validation succeeds on the
first attempt; the statement fetch itself must never be reached for an
invalid type. -/
def c7Up : FinancialUpstream :=
  ⟨fun _ => Except.ok (some "isin"), fun _ _ => Except.error "unused"⟩

set_option maxRecDepth 4000 in
/-- C7 counterexample: at a concrete uncached, unthrottled call with a bogus
financial type, get_financial_statement does return the invalid-type error
string enumerating the six valid values, but it performs one upstream fetch
(the `company.isin` ticker validation precedes the type check in the
source), so the claimed "performs no upstream call" fails. -/
theorem spec_c7_cex :
    (getFinancialStatement defaultConfig ⟨[], []⟩ [] "AAPL" "bogus_type" c7Up
        (fun _ => 0) 0 0 0).value
      = some (invalidFinancialTypeMessage "bogus_type")
    ∧ (getFinancialStatement defaultConfig ⟨[], []⟩ [] "AAPL" "bogus_type" c7Up
        (fun _ => 0) 0 0 0).fetchCalls = 1
    ∧ ¬ (getFinancialStatement defaultConfig ⟨[], []⟩ [] "AAPL" "bogus_type" c7Up
        (fun _ => 0) 0 0 0).fetchCalls = 0 := by
  with_unfolding_all decide

/-- C7 amended: for a financial type outside the six valid values, when the
call is not served from the cache, not rate-limited, and the ticker
validation fetch succeeds in `n` attempts, get_financial_statement returns
the invalid-type error string enumerating the six valid types, performs
exactly those `n` ticker-validation fetch invocations and no statement
fetch, and stores nothing in the cache. -/
theorem spec_c7_invalid_type (cfg : Config) (lim : LimiterState) (cache : Cache)
    (ticker financialType : String) (up : FinancialUpstream) (rnd : ℕ → ℚ)
    (tGet tCheck tSet : ℚ) (isinVal : String) (n : ℕ) (s : List ℚ)
    (hft : financialType ∉ financialTypes)
    (hcache : (cacheGet cache (financialKey ticker financialType) tGet).1 = none)
    (hrl : (rateLimitCheck cfg lim ticker tCheck).limited = false)
    (hisin : executeWithRetry up.isin rnd cfg.backoffBase cfg.maxRetries
      = (Except.ok (some isinVal), n, s)) :
    getFinancialStatement cfg lim cache ticker financialType up rnd tGet tCheck tSet
      = { value := some (invalidFinancialTypeMessage financialType)
          limiter := (rateLimitCheck cfg lim ticker tCheck).state
          cache := (cacheGet cache (financialKey ticker financialType) tGet).2
          fetchCalls := n
          rateChecked := true } := by
  rcases hcg : cacheGet cache (financialKey ticker financialType) tGet with ⟨cv, c1⟩
  rw [hcg] at hcache
  dsimp only at hcache
  subst hcache
  unfold getFinancialStatement
  rw [hcg]
  dsimp only
  rw [if_neg (by rw [hrl]; exact Bool.false_ne_true)]
  rw [hisin]
  dsimp only
  rw [if_neg hft]

/-- Witness for C7 amended at the concrete counterexample input. -/
theorem spec_c7_invalid_type_w :
    getFinancialStatement defaultConfig ⟨[], []⟩ [] "AAPL" "bogus_type" c7Up
        (fun _ => 0) 0 0 0
      = { value := some (invalidFinancialTypeMessage "bogus_type")
          limiter := (rateLimitCheck defaultConfig ⟨[], []⟩ "AAPL" 0).state
          cache := (cacheGet [] (financialKey "AAPL" "bogus_type") 0).2
          fetchCalls := 1
          rateChecked := true } :=
  spec_c7_invalid_type defaultConfig ⟨[], []⟩ [] "AAPL" "bogus_type" c7Up
    (fun _ => 0) 0 0 0 "isin" 1 []
    (by decide) (by decide) (by with_unfolding_all decide) (by rfl)

/-- Recommendations upstream whose ticker validation succeeds on the first
attempt. -/
def c6Up : RecommendationsUpstream :=
  ⟨fun _ => Except.ok (some "isin"), fun _ => Except.error "unused",
   fun _ => Except.error "unused"⟩

/-- C6: at a concrete uncached, unthrottled call whose ticker validation
succeeds but whose recommendation type matches neither enum value, the
try-block of get_recommendations completes without returning and the
function returns Python `None` — not a string — contradicting the
all-operations-return-a-string contract and the handler's own `-> str`
annotation. -/
theorem spec_c6_nonstring_return :
    (getRecommendations defaultConfig ⟨[], []⟩ [] "AAPL" "bogus" 12 c6Up
        (fun _ => 0) 0 0 0).value = none := by
  with_unfolding_all decide

end YFin
